import Mathlib

/-!
Shallow embedding of the transaction ledger of `src/app.py` (a Flask +
SQLite personal expense tracker).

The SQLite table `transactions` is modelled as a list of rows together
with the AUTOINCREMENT counter.  `REAL` amounts are modelled as `ℚ`
(exact values; the Python layer parses the incoming string with
`float(...)`, modelled as an `Option ℚ` argument where `none` means the
string did not parse).  `TEXT` dates and timestamps are ISO-8601 strings
compared with the SQLite byte-wise text collation, which on such strings
coincides with the lexicographic `String` order.
-/

namespace ExpenseTracker

/-- Row of the `transactions` table / the Python `Transaction` object.
`id = none` models a `Transaction` not yet persisted (Python `id=None`). -/
structure Transaction where
  id : Option Nat
  type : String
  amount : ℚ
  category : String
  description : String
  date : String
  created_at : String
deriving DecidableEq, Repr

/-- The persistent state: the `transactions` table plus the SQLite
AUTOINCREMENT counter (the next rowid to be handed out). -/
structure DBState where
  rows : List Transaction
  nextId : Nat
deriving DecidableEq, Repr

/-- Fresh database, as produced by `init_db`: empty table, first rowid 1. -/
def emptyDB : DBState := ⟨[], 1⟩

/-- `Transaction.__init__` as invoked by the `/add` route: `float(amount)`
raises `ValueError` when the string does not parse (`amount = none`);
`date or today` and `created_at or now` provide the defaults. -/
def Transaction.init (ty : String) (amount : Option ℚ) (category description : String)
    (date : Option String) (today now : String) : Option Transaction :=
  match amount with
  | none => none
  | some a => some ⟨none, ty, a, category, description, date.getD today, now⟩

/-- `ExpenseDatabase.add_transaction`: INSERT the row.  The CHECK
constraint of the table (type IN (income, expense)) aborts the insert with
an `IntegrityError` for any other `type`; on success the fresh rowid is
written back into the object and it is returned. -/
def add_transaction (st : DBState) (t : Transaction) : Except String (Transaction × DBState) :=
  if t.type = "income" ∨ t.type = "expense" then
    let t' : Transaction := { t with id := some st.nextId }
    .ok (t', ⟨st.rows ++ [t'], st.nextId + 1⟩)
  else
    .error "IntegrityError: CHECK constraint failed: type IN (income, expense)"

/-- The try-block of the `/add` route: construct the `Transaction` (parsing the
amount), then insert it.  Any exception propagates to the caller. -/
def create (st : DBState) (ty : String) (amount : Option ℚ) (category description : String)
    (date : Option String) (today now : String) : Except String (Transaction × DBState) :=
  match Transaction.init ty amount category description date today now with
  | none => .error "ValueError: could not convert string to float"
  | some t => add_transaction st t

/-- HTTP-level outcome of the `/add` route. -/
inductive AddOutcome where
  | redirect
  | badRequest (msg : String)
deriving DecidableEq, Repr

/-- The `/add` route: on success redirect to the index, on any exception
answer 400 with the message of the exception; a failed request leaves the
database unchanged. -/
def route_add (st : DBState) (ty : String) (amount : Option ℚ) (category description : String)
    (date : Option String) (today now : String) : AddOutcome × DBState :=
  match create st ty amount category description date today now with
  | .ok (_, st') => (.redirect, st')
  | .error e => (.badRequest e, st)

/-- `ExpenseDatabase.get_transaction_by_id`: `SELECT * FROM transactions
WHERE id = ?`, first matching row or `None`. -/
def get_transaction_by_id (st : DBState) (i : Nat) : Option Transaction :=
  st.rows.find? (fun t => decide (t.id = some i))

/-- SQL `ORDER BY date DESC, created_at DESC` as a relation: `a` may come
before `b`.  The SQLite byte-wise TEXT collation is the lexicographic order
on the character lists of the strings. -/
def txLe (a b : Transaction) : Prop :=
  b.date.data < a.date.data ∨
    (b.date.data = a.date.data ∧ ¬ a.created_at.data < b.created_at.data)

instance : DecidableRel txLe := fun _ _ =>
  inferInstanceAs (Decidable (_ ∨ _))

instance : IsTotal Transaction txLe where
  total a b := by
    rcases lt_trichotomy a.date.data b.date.data with h | h | h
    · exact Or.inr (Or.inl h)
    · by_cases h' : a.created_at.data < b.created_at.data
      · exact Or.inr (Or.inr ⟨h, fun hb => lt_asymm h' hb⟩)
      · exact Or.inl (Or.inr ⟨h.symm, h'⟩)
    · exact Or.inl (Or.inl h)

instance : IsTrans Transaction txLe where
  trans a b c hab hbc := by
    rcases hab with h1 | ⟨e1, l1⟩
    · rcases hbc with h2 | ⟨e2, l2⟩
      · exact Or.inl (h2.trans h1)
      · exact Or.inl (by rw [e2]; exact h1)
    · rcases hbc with h2 | ⟨e2, l2⟩
      · exact Or.inl (by rw [← e1]; exact h2)
      · exact Or.inr ⟨e2.trans e1, fun hac => l1 (lt_of_lt_of_le hac (not_lt.mp l2))⟩

/-- `ExpenseDatabase.get_all_transactions`: sort by `date DESC,
created_at DESC`; the `LIMIT` clause is appended only when `limit` is
truthy in Python, so `limit = 0` (like `None`) means no limit. -/
def get_all_transactions (st : DBState) (limit : Option Nat) : List Transaction :=
  let sorted := List.insertionSort txLe st.rows
  match limit with
  | none => sorted
  | some n => if n ≠ 0 then sorted.take n else sorted

/-- Sparse update payload for `update_transaction` (the `allowed_fields`
of the source: `type`, `amount`, `category`, `description`, `date`). -/
structure Patch where
  type : Option String
  amount : Option ℚ
  category : Option String
  description : Option String
  date : Option String
deriving DecidableEq, Repr

/-- `if not fields` in `update_transaction`: no allowed field present. -/
def Patch.isEmpty (p : Patch) : Bool :=
  p.type.isNone && p.amount.isNone && p.category.isNone &&
    p.description.isNone && p.date.isNone

/-- Effect of `UPDATE transactions SET f = ? ...` on one row: each field
present in the payload replaces the stored one, the rest stay put. -/
def applyPatch (p : Patch) (t : Transaction) : Transaction :=
  { t with
    type := p.type.getD t.type
    amount := p.amount.getD t.amount
    category := p.category.getD t.category
    description := p.description.getD t.description
    date := p.date.getD t.date }

/-- `ExpenseDatabase.update_transaction`: returns `None` early when no
allowed field is supplied; otherwise runs the UPDATE (the CHECK
constraint rejects an invalid `type` with `IntegrityError`, leaving the
database unchanged); when the UPDATE matched a row (`rowcount > 0`) the
record is re-read and returned, else `None` with the state untouched. -/
def update_transaction (st : DBState) (i : Nat) (p : Patch) :
    Except String (Option Transaction × DBState) :=
  if p.isEmpty then
    .ok (none, st)
  else if (match p.type with
           | some ty => decide (ty = "income" ∨ ty = "expense")
           | none => true) then
    if st.rows.any (fun t => decide (t.id = some i)) then
      let st' : DBState :=
        ⟨st.rows.map (fun t => if t.id = some i then applyPatch p t else t), st.nextId⟩
      .ok (get_transaction_by_id st' i, st')
    else
      .ok (none, st)
  else
    .error "IntegrityError: CHECK constraint failed: type IN (income, expense)"

/-- `ExpenseDatabase.delete_transaction`: `DELETE FROM transactions WHERE
id = ?`; the returned Boolean is `rowcount > 0`. -/
def delete_transaction (st : DBState) (i : Nat) : Bool × DBState :=
  (st.rows.any (fun t => decide (t.id = some i)),
   ⟨st.rows.filter (fun t => decide (t.id ≠ some i)), st.nextId⟩)

/-- One result row of `SELECT type, SUM(amount), COUNT(*) ... GROUP BY
type` for the group keyed by `ty`. -/
def typeGroup (rows : List Transaction) (ty : String) : String × ℚ × Nat :=
  (ty,
   ((rows.filter (fun t => decide (t.type = ty))).map Transaction.amount).sum,
   (rows.filter (fun t => decide (t.type = ty))).length)

/-- Result rows of `SELECT type, SUM(amount), COUNT(*) ... GROUP BY
type`: one entry per distinct `type` value. -/
def typeGroups (rows : List Transaction) : List (String × ℚ × Nat) :=
  ((rows.map Transaction.type).dedup).map (typeGroup rows)

/-- The summary record assembled by `get_summary`. -/
structure Summary where
  total_income : ℚ
  total_expenses : ℚ
  net_balance : ℚ
  income_count : Nat
  expense_count : Nat
  total_transactions : Nat
deriving DecidableEq, Repr

/-- Initial summary dictionary of `get_summary` (all zeroes). -/
def summaryInit : Summary := ⟨0, 0, 0, 0, 0, 0⟩

/-- Body of the `for row in results` loop of `get_summary`. -/
def summaryStep (s : Summary) (r : String × ℚ × Nat) : Summary :=
  if r.1 = "income" then
    { s with total_income := r.2.1, income_count := r.2.2 }
  else if r.1 = "expense" then
    { s with total_expenses := r.2.1, expense_count := r.2.2 }
  else s

/-- `ExpenseDatabase.get_summary`: fold the grouped query results into
the summary dictionary, then derive `net_balance` and
`total_transactions`. -/
def get_summary (st : DBState) : Summary :=
  let s := (typeGroups st.rows).foldl summaryStep summaryInit
  { s with
    net_balance := s.total_income - s.total_expenses
    total_transactions := s.income_count + s.expense_count }

/-- Grouping key of `GROUP BY type, category`. -/
def keyTC (t : Transaction) : String × String := (t.type, t.category)

/-- One result row of the `GROUP BY type, category` query for the group
keyed by `k`. -/
def categoryGroup (rows : List Transaction) (k : String × String) :
    String × String × ℚ × Nat :=
  (k.1, k.2,
   ((rows.filter (fun t => decide (keyTC t = k))).map Transaction.amount).sum,
   (rows.filter (fun t => decide (keyTC t = k))).length)

/-- Result rows of `SELECT type, category, SUM(amount), COUNT(*) ...
GROUP BY type, category` (before the ORDER BY). -/
def categoryGroups (rows : List Transaction) : List (String × String × ℚ × Nat) :=
  ((rows.map keyTC).dedup).map (categoryGroup rows)

/-- `ORDER BY total DESC` as a relation on grouped rows. -/
def catLe (a b : String × String × ℚ × Nat) : Prop := b.2.2.1 ≤ a.2.2.1

instance : DecidableRel catLe := fun _ _ =>
  inferInstanceAs (Decidable (_ ≤ _))

instance : IsTotal (String × String × ℚ × Nat) catLe where
  total a b := (le_total b.2.2.1 a.2.2.1).imp id id

instance : IsTrans (String × String × ℚ × Nat) catLe where
  trans _ _ _ hab hbc := le_trans hbc hab

/-- `ExpenseDatabase.get_category_summary`: run the grouped query ordered
by `total DESC` and distribute the rows into the `income` and `expense`
lists (each entry keeps `category`, `total`, `count`).  The Python loop
indexes the categories dictionary by the row kind, which is only defined
for the two valid kinds — the table CHECK constraint guarantees that. -/
def get_category_summary (st : DBState) :
    List (String × ℚ × Nat) × List (String × ℚ × Nat) :=
  let sorted := List.insertionSort catLe (categoryGroups st.rows)
  ((sorted.filter (fun g => decide (g.1 = "income"))).map (fun g => g.2),
   (sorted.filter (fun g => decide (g.1 = "expense"))).map (fun g => g.2))

/-- All rows carry one of the two valid kinds — invariant enforced by the
table CHECK constraint. -/
def KindsValid (st : DBState) : Prop :=
  ∀ t ∈ st.rows, t.type = "income" ∨ t.type = "expense"

/-- All stored rowids are populated and below the AUTOINCREMENT counter. -/
def IdsFresh (st : DBState) : Prop :=
  ∀ t ∈ st.rows, ∀ n, t.id = some n → n < st.nextId

/-- A persisted sample expense row. -/
def sampleTx : Transaction :=
  ⟨some 1, "expense", 10, "Food", "", "2024-01-01", "2024-01-01T09:00:00"⟩

/-- A persisted sample income row. -/
def sampleTx2 : Transaction :=
  ⟨some 2, "income", 1000, "Salary", "", "2024-01-02", "2024-01-02T09:00:00"⟩

/-- A small populated ledger reachable by two successful creates. -/
def sampleDB : DBState := ⟨[sampleTx, sampleTx2], 3⟩

/-- Ledger built by inserting rows with `occurredOn` 2024-01-01,
2024-01-03, 2024-01-02, in that order (the scenario of claim C3). -/
def c3State : DBState :=
  (route_add (route_add (route_add emptyDB
    "expense" (some 10) "Food" "" (some "2024-01-01") "2024-01-05" "2024-01-05T10:00:00").2
    "income" (some 1000) "Salary" "" (some "2024-01-03") "2024-01-05" "2024-01-05T10:01:00").2
    "expense" (some 7) "Food" "" (some "2024-01-02") "2024-01-05" "2024-01-05T10:02:00").2

/-! ### General list lemmas used by the aggregation proofs -/

/-- The size of the fiber of `f` over `b` is the number of occurrences
of `b` in the image list. -/
theorem length_filter_eq_countP_map {α β : Type} [DecidableEq β] (f : α → β) (b : β)
    (l : List α) :
    (l.filter (fun a => decide (f a = b))).length
      = (l.map f).countP (fun x => decide (x = b)) := by
  rw [List.countP_map, ← List.countP_eq_length_filter]
  rfl

/-- On a duplicate-free list the occurrence count of `a` is one or zero
according to membership. -/
theorem countP_eq_ite_of_nodup {α : Type} [DecidableEq α] :
    ∀ l : List α, l.Nodup → ∀ a : α,
      l.countP (fun x => decide (x = a)) = if a ∈ l then 1 else 0 := by
  intro l
  induction l with
  | nil =>
    intro _ a
    simp
  | cons b l ih =>
    intro hnd a
    rcases List.nodup_cons.mp hnd with ⟨hb, hl⟩
    rw [List.countP_cons]
    by_cases hab : b = a
    · subst hab
      rw [ih hl b, if_neg hb]
      simp
    · rw [ih hl a]
      by_cases hmem : a ∈ l
      · rw [if_pos hmem, if_pos (List.mem_cons_of_mem b hmem)]
        simp [hab]
      · have hnotin : a ∉ b :: l := by
          intro h
          rcases List.mem_cons.mp h with h | h
          · exact hab h.symm
          · exact hmem h
        rw [if_neg hmem, if_neg hnotin]
        simp [hab]

/-- Summing the multiplicities of the members of a duplicate-free list
that covers `m` recovers the length of `m`. -/
theorem sum_map_countP_of_nodup {α : Type} [DecidableEq α] :
    ∀ (d : List α) (m : List α), d.Nodup → (∀ x ∈ m, x ∈ d) →
      (d.map (fun x => m.countP (fun y => decide (y = x)))).sum = m.length := by
  intro d
  induction d with
  | nil =>
    intro m _ hcov
    have : m = [] := List.eq_nil_iff_forall_not_mem.mpr (fun a ha => by simpa using hcov a ha)
    simp [this]
  | cons a d ih =>
    intro m hnd hcov
    have hand : a ∉ d := (List.nodup_cons.mp hnd).1
    have hd : d.Nodup := (List.nodup_cons.mp hnd).2
    have hcov' : ∀ x ∈ m.filter (fun x => decide (x ≠ a)), x ∈ d := by
      intro x hx
      have hxm := List.mem_of_mem_filter hx
      have hxa : x ≠ a := by
        have := List.of_mem_filter hx
        simpa using this
      rcases List.mem_cons.mp (hcov x hxm) with h | h
      · exact absurd h hxa
      · exact h
    have hcount : ∀ x ∈ d, m.countP (fun y => decide (y = x))
        = (m.filter (fun y => decide (y ≠ a))).countP (fun y => decide (y = x)) := by
      intro x hxd
      have hxa : x ≠ a := fun h => hand (h ▸ hxd)
      rw [List.countP_filter]
      apply List.countP_congr
      intro y _
      by_cases hyx : y = x
      · subst hyx
        simp [hxa]
      · simp [hyx]
    have hmapeq : d.map (fun x => m.countP (fun y => decide (y = x)))
        = d.map (fun x => (m.filter (fun y => decide (y ≠ a))).countP
            (fun y => decide (y = x))) :=
      List.map_congr_left hcount
    have hsplit : m.length = m.countP (fun y => decide (y = a))
        + (m.filter (fun y => decide (y ≠ a))).length := by
      rw [← List.countP_eq_length_filter,
        List.length_eq_countP_add_countP (fun y => decide (y = a)) m]
      congr 1
      apply List.countP_congr
      intro y _
      simp
    rw [List.map_cons, List.sum_cons, hmapeq, ih _ hd hcov', hsplit]

/-- Summing the multiplicities of the deduplicated members satisfying
`p` counts the members of `m` satisfying `p`. -/
theorem sum_map_countP_dedup_filter {α : Type} [DecidableEq α] (m : List α) (p : α → Bool) :
    ((m.dedup.filter p).map (fun x => m.countP (fun y => decide (y = x)))).sum
      = m.countP p := by
  have hnd : (m.dedup.filter p).Nodup := (List.nodup_dedup m).filter p
  have hcov : ∀ x ∈ m.filter p, x ∈ m.dedup.filter p := by
    intro x hx
    refine List.mem_filter.mpr
      ⟨List.mem_dedup.mpr (List.mem_of_mem_filter hx), List.of_mem_filter hx⟩
  have hcount : ∀ x ∈ m.dedup.filter p, m.countP (fun y => decide (y = x))
      = (m.filter p).countP (fun y => decide (y = x)) := by
    intro x hx
    rw [List.countP_filter]
    apply List.countP_congr
    intro y _
    by_cases hyx : y = x
    · subst hyx
      simp [List.of_mem_filter hx]
    · simp [hyx]
  calc ((m.dedup.filter p).map (fun x => m.countP (fun y => decide (y = x)))).sum
      = ((m.dedup.filter p).map (fun x => (m.filter p).countP
          (fun y => decide (y = x)))).sum := by
        rw [List.map_congr_left hcount]
    _ = (m.filter p).length := sum_map_countP_of_nodup _ _ hnd hcov
    _ = m.countP p := (List.countP_eq_length_filter p m).symm

/-! ### Characterisation of `get_summary` -/

/-- Folding rows none of which is the `income` group leaves the income
fields untouched. -/
theorem foldl_summaryStep_no_income (gs : List (String × ℚ × Nat)) :
    ∀ s : Summary, (∀ r ∈ gs, r.1 ≠ "income") →
      (gs.foldl summaryStep s).total_income = s.total_income ∧
      (gs.foldl summaryStep s).income_count = s.income_count := by
  induction gs with
  | nil => exact fun s _ => ⟨rfl, rfl⟩
  | cons r gs ih =>
    intro s h
    have hr : r.1 ≠ "income" := h r (List.mem_cons_self r gs)
    have hstep : (summaryStep s r).total_income = s.total_income ∧
        (summaryStep s r).income_count = s.income_count := by
      simp only [summaryStep, if_neg hr]
      split <;> exact ⟨rfl, rfl⟩
    have := ih (summaryStep s r) (fun x hx => h x (List.mem_cons_of_mem r hx))
    rw [List.foldl_cons]
    exact ⟨this.1.trans hstep.1, this.2.trans hstep.2⟩

/-- Folding rows none of which is the `expense` group leaves the expense
fields untouched. -/
theorem foldl_summaryStep_no_expense (gs : List (String × ℚ × Nat)) :
    ∀ s : Summary, (∀ r ∈ gs, r.1 ≠ "expense") →
      (gs.foldl summaryStep s).total_expenses = s.total_expenses ∧
      (gs.foldl summaryStep s).expense_count = s.expense_count := by
  induction gs with
  | nil => exact fun s _ => ⟨rfl, rfl⟩
  | cons r gs ih =>
    intro s h
    have hr : r.1 ≠ "expense" := h r (List.mem_cons_self r gs)
    have hstep : (summaryStep s r).total_expenses = s.total_expenses ∧
        (summaryStep s r).expense_count = s.expense_count := by
      simp only [summaryStep, if_neg hr]
      split <;> exact ⟨rfl, rfl⟩
    have := ih (summaryStep s r) (fun x hx => h x (List.mem_cons_of_mem r hx))
    rw [List.foldl_cons]
    exact ⟨this.1.trans hstep.1, this.2.trans hstep.2⟩

/-- The income fields produced by folding the grouped rows are the sum
and count over the rows of kind `income`. -/
theorem foldl_typeGroups_income (rows : List Transaction) :
    ((typeGroups rows).foldl summaryStep summaryInit).total_income
        = ((rows.filter (fun t => decide (t.type = "income"))).map Transaction.amount).sum ∧
    ((typeGroups rows).foldl summaryStep summaryInit).income_count
        = (rows.filter (fun t => decide (t.type = "income"))).length := by
  by_cases hmem : "income" ∈ (rows.map Transaction.type).dedup
  · obtain ⟨k₁, k₂, hk⟩ := List.append_of_mem hmem
    have hnd : ((rows.map Transaction.type).dedup).Nodup := List.nodup_dedup _
    rw [hk] at hnd
    have h₁ : "income" ∉ k₁ := by
      intro h
      rcases List.nodup_append.mp hnd with ⟨_, _, hdisj⟩
      exact hdisj h (List.mem_cons_self _ _)
    have h₂ : "income" ∉ k₂ := by
      rcases List.nodup_append.mp hnd with ⟨_, hnd₂, _⟩
      exact (List.nodup_cons.mp hnd₂).1
    have hsplit : typeGroups rows
        = k₁.map (typeGroup rows) ++ typeGroup rows "income" :: k₂.map (typeGroup rows) := by
      rw [typeGroups, hk, List.map_append, List.map_cons]
    rw [hsplit, List.foldl_append, List.foldl_cons]
    have hstep : summaryStep (List.foldl summaryStep summaryInit (k₁.map (typeGroup rows)))
          (typeGroup rows "income")
        = { List.foldl summaryStep summaryInit (k₁.map (typeGroup rows)) with
            total_income := ((rows.filter (fun t => decide (t.type = "income"))).map
              Transaction.amount).sum,
            income_count := (rows.filter (fun t => decide (t.type = "income"))).length } := by
      simp [summaryStep, typeGroup]
    rw [hstep]
    have hrest : ∀ r ∈ k₂.map (typeGroup rows), r.1 ≠ "income" := by
      intro r hr
      obtain ⟨ty, hty, rfl⟩ := List.mem_map.mp hr
      show ty ≠ _
      exact fun h => h₂ (h ▸ hty)
    exact foldl_summaryStep_no_income _ _ hrest
  · have hnone : ∀ r ∈ typeGroups rows, r.1 ≠ "income" := by
      intro r hr
      obtain ⟨ty, hty, rfl⟩ := List.mem_map.mp hr
      show ty ≠ _
      exact fun h => hmem (h ▸ hty)
    have hempty : rows.filter (fun t => decide (t.type = "income")) = [] := by
      rw [List.filter_eq_nil_iff]
      intro t ht hdec
      have : t.type = "income" := by simpa using hdec
      exact hmem (List.mem_dedup.mpr (this ▸ List.mem_map_of_mem Transaction.type ht))
    have := foldl_summaryStep_no_income (typeGroups rows) summaryInit hnone
    rw [hempty]
    simpa [summaryInit] using this

/-- The expense fields produced by folding the grouped rows are the sum
and count over the rows of kind `expense`. -/
theorem foldl_typeGroups_expense (rows : List Transaction) :
    ((typeGroups rows).foldl summaryStep summaryInit).total_expenses
        = ((rows.filter (fun t => decide (t.type = "expense"))).map Transaction.amount).sum ∧
    ((typeGroups rows).foldl summaryStep summaryInit).expense_count
        = (rows.filter (fun t => decide (t.type = "expense"))).length := by
  by_cases hmem : "expense" ∈ (rows.map Transaction.type).dedup
  · obtain ⟨k₁, k₂, hk⟩ := List.append_of_mem hmem
    have hnd : ((rows.map Transaction.type).dedup).Nodup := List.nodup_dedup _
    rw [hk] at hnd
    have h₁ : "expense" ∉ k₁ := by
      intro h
      rcases List.nodup_append.mp hnd with ⟨_, _, hdisj⟩
      exact hdisj h (List.mem_cons_self _ _)
    have h₂ : "expense" ∉ k₂ := by
      rcases List.nodup_append.mp hnd with ⟨_, hnd₂, _⟩
      exact (List.nodup_cons.mp hnd₂).1
    have hsplit : typeGroups rows
        = k₁.map (typeGroup rows) ++ typeGroup rows "expense" :: k₂.map (typeGroup rows) := by
      rw [typeGroups, hk, List.map_append, List.map_cons]
    rw [hsplit, List.foldl_append, List.foldl_cons]
    have hstep : summaryStep (List.foldl summaryStep summaryInit (k₁.map (typeGroup rows)))
          (typeGroup rows "expense")
        = { List.foldl summaryStep summaryInit (k₁.map (typeGroup rows)) with
            total_expenses := ((rows.filter (fun t => decide (t.type = "expense"))).map
              Transaction.amount).sum,
            expense_count := (rows.filter (fun t => decide (t.type = "expense"))).length } := by
      simp [summaryStep, typeGroup]
    rw [hstep]
    have hrest : ∀ r ∈ k₂.map (typeGroup rows), r.1 ≠ "expense" := by
      intro r hr
      obtain ⟨ty, hty, rfl⟩ := List.mem_map.mp hr
      show ty ≠ _
      exact fun h => h₂ (h ▸ hty)
    exact foldl_summaryStep_no_expense _ _ hrest
  · have hnone : ∀ r ∈ typeGroups rows, r.1 ≠ "expense" := by
      intro r hr
      obtain ⟨ty, hty, rfl⟩ := List.mem_map.mp hr
      show ty ≠ _
      exact fun h => hmem (h ▸ hty)
    have hempty : rows.filter (fun t => decide (t.type = "expense")) = [] := by
      rw [List.filter_eq_nil_iff]
      intro t ht hdec
      have : t.type = "expense" := by simpa using hdec
      exact hmem (List.mem_dedup.mpr (this ▸ List.mem_map_of_mem Transaction.type ht))
    have := foldl_summaryStep_no_expense (typeGroups rows) summaryInit hnone
    rw [hempty]
    simpa [summaryInit] using this

/-- Full characterisation of `get_summary` in terms of the stored rows. -/
theorem get_summary_spec (st : DBState) :
    get_summary st =
      { total_income :=
          ((st.rows.filter (fun t => decide (t.type = "income"))).map Transaction.amount).sum,
        total_expenses :=
          ((st.rows.filter (fun t => decide (t.type = "expense"))).map Transaction.amount).sum,
        net_balance :=
          ((st.rows.filter (fun t => decide (t.type = "income"))).map Transaction.amount).sum -
            ((st.rows.filter (fun t => decide (t.type = "expense"))).map Transaction.amount).sum,
        income_count := (st.rows.filter (fun t => decide (t.type = "income"))).length,
        expense_count := (st.rows.filter (fun t => decide (t.type = "expense"))).length,
        total_transactions :=
          (st.rows.filter (fun t => decide (t.type = "income"))).length +
            (st.rows.filter (fun t => decide (t.type = "expense"))).length } := by
  obtain ⟨hi1, hi2⟩ := foldl_typeGroups_income st.rows
  obtain ⟨he1, he2⟩ := foldl_typeGroups_expense st.rows
  simp only [get_summary]
  congr 1 <;> simp [hi1, hi2, he1, he2]

/-! ### Claim theorems -/

/-- Claim C2: for every state of the ledger (including the empty one),
`summarize()` returns `totalIncome` equal to the sum of `amount` over
records with kind income, `totalExpense` analogously over kind expense,
`netBalance` equal to `totalIncome` minus `totalExpense`, `incomeCount`
and `expenseCount` equal to the record counts per kind, and `totalCount`
equal to `incomeCount` plus `expenseCount`; on the empty ledger all six
values are zero (and the operation is total, hence never fails). -/
theorem C2_summarize_correct :
    (∀ st : DBState,
      (get_summary st).total_income
          = ((st.rows.filter (fun t => decide (t.type = "income"))).map Transaction.amount).sum ∧
      (get_summary st).total_expenses
          = ((st.rows.filter (fun t => decide (t.type = "expense"))).map Transaction.amount).sum ∧
      (get_summary st).net_balance
          = (get_summary st).total_income - (get_summary st).total_expenses ∧
      (get_summary st).income_count
          = (st.rows.filter (fun t => decide (t.type = "income"))).length ∧
      (get_summary st).expense_count
          = (st.rows.filter (fun t => decide (t.type = "expense"))).length ∧
      (get_summary st).total_transactions
          = (get_summary st).income_count + (get_summary st).expense_count) ∧
    get_summary emptyDB = ⟨0, 0, 0, 0, 0, 0⟩ := by
  constructor
  · intro st
    rw [get_summary_spec st]
    exact ⟨rfl, rfl, rfl, rfl, rfl, rfl⟩
  · rw [get_summary_spec emptyDB]
    simp [emptyDB]

/-- Claim C9: `delete(id)` returns true exactly when a record with that
id existed (and removes every such record), never raising an error; a
second delete of the same id returns false. -/
theorem C9_delete_idempotent :
    ∀ (st : DBState) (i : Nat),
      ((delete_transaction st i).1 = true ↔ ∃ t ∈ st.rows, t.id = some i) ∧
      (∀ t ∈ (delete_transaction st i).2.rows, t.id ≠ some i) ∧
      (∀ t ∈ st.rows, t.id ≠ some i → t ∈ (delete_transaction st i).2.rows) ∧
      (delete_transaction (delete_transaction st i).2 i).1 = false := by
  intro st i
  refine ⟨?_, ?_, ?_, ?_⟩
  · simp [delete_transaction, List.any_eq_true]
  · intro t ht
    have := List.of_mem_filter ht
    simpa using this
  · intro t ht hne
    exact List.mem_filter.mpr ⟨ht, by simpa using hne⟩
  · rw [Bool.eq_false_iff]
    intro hany
    rcases List.any_eq_true.mp hany with ⟨t, ht, hdec⟩
    have h1 : t.id = some i := by simpa using hdec
    have h2 := List.of_mem_filter ht
    simp [h1] at h2

/-- Claim C10: calling `list` with `limit = 0` returns every stored
record (0 is falsy in Python, so the LIMIT clause is not applied and the
result coincides with the un-limited listing). -/
theorem C10_limit_zero :
    ∀ st : DBState,
      get_all_transactions st (some 0) = get_all_transactions st none ∧
      (get_all_transactions st (some 0)).Perm st.rows := by
  intro st
  refine ⟨rfl, ?_⟩
  exact List.perm_insertionSort txLe st.rows

/-- Claim C1 counterexample: `create(kind="expense", amount=-5, ...)`
does NOT fail — the negative amount parses, no validation rejects it,
and the record is persisted with amount `-5`. -/
theorem C1_counterexample :
    (route_add emptyDB "expense" (some (-5)) "Food" "" (some "2024-01-01")
      "2024-01-02" "2024-01-02T00:00:00").1 = AddOutcome.redirect ∧
    (route_add emptyDB "expense" (some (-5)) "Food" "" (some "2024-01-01")
      "2024-01-02" "2024-01-02T00:00:00").2.rows.map Transaction.amount = [(-5 : ℚ)] :=
  ⟨rfl, rfl⟩

/-- Claim C1 (amended): a create whose kind is not one of
income/expense, or whose amount does not parse to a number, fails (HTTP
400) and persists nothing; negative amounts that do parse are accepted. -/
theorem C1_create_validation (st : DBState) (ty : String) (amount : Option ℚ)
    (category description : String) (date : Option String) (today now : String)
    (h : amount = none ∨ (ty ≠ "income" ∧ ty ≠ "expense")) :
    (∃ msg, (route_add st ty amount category description date today now).1
        = AddOutcome.badRequest msg) ∧
    (route_add st ty amount category description date today now).2 = st := by
  rcases h with h | ⟨h1, h2⟩
  · subst h
    exact ⟨⟨_, rfl⟩, rfl⟩
  · cases amount with
    | none => exact ⟨⟨_, rfl⟩, rfl⟩
    | some a =>
      have hne : ¬ (ty = "income" ∨ ty = "expense") := by tauto
      simp [route_add, create, Transaction.init, add_transaction, hne]

/-- Claim C1 witness: `create(kind="bogus", amount=10, ...)` fails with
a 400 and leaves the ledger empty. -/
theorem C1_create_validation_witness :
    (∃ msg, (route_add emptyDB "bogus" (some 10) "Food" "" (some "2024-01-01")
        "d" "t").1 = AddOutcome.badRequest msg) ∧
    (route_add emptyDB "bogus" (some 10) "Food" "" (some "2024-01-01") "d" "t").2 = emptyDB :=
  C1_create_validation emptyDB "bogus" (some 10) "Food" "" (some "2024-01-01") "d" "t"
    (Or.inr (by decide))

/-- Claim C6 counterexample: on the empty ledger, an update with a full
valid field set against a missing id and an update with an empty field
set return the very same value, so the two failure conditions are not
distinguishable by the caller. -/
theorem C6_counterexample :
    update_transaction emptyDB 1
        ⟨some "expense", some 5, some "X", some "", some "2024-01-05"⟩
      = Except.ok (none, emptyDB) ∧
    update_transaction emptyDB 1 ⟨none, none, none, none, none⟩
      = Except.ok (none, emptyDB) :=
  ⟨rfl, rfl⟩

/-- Claim C6 (amended): `update` returns the same `None` result (mapped
by the route to one and the same 400 response) both when the id does not
exist and when no fields are supplied; the two failure conditions are
not distinguishable, and the state is unchanged. -/
theorem C6_update_failure_modes (st : DBState) (i : Nat) (p : Patch)
    (hty : p.type = none ∨ p.type = some "income" ∨ p.type = some "expense")
    (h : p.isEmpty = true ∨ ∀ t ∈ st.rows, t.id ≠ some i) :
    update_transaction st i p = .ok (none, st) := by
  by_cases he : p.isEmpty
  · simp [update_transaction, he]
  · rcases h with h | h
    · exact absurd h he
    · have hcheck : (match p.type with
          | some ty => decide (ty = "income" ∨ ty = "expense")
          | none => true) = true := by
        rcases hty with h' | h' | h' <;> simp [h']
      have hany : st.rows.any (fun t => decide (t.id = some i)) = false := by
        rw [Bool.eq_false_iff]
        intro hx
        rcases List.any_eq_true.mp hx with ⟨t, ht, hdec⟩
        exact h t ht (by simpa using hdec)
      unfold update_transaction
      rw [if_neg he, if_pos hcheck, if_neg (by rw [hany]; exact Bool.false_ne_true)]

/-- Claim C6 witness: updating a missing id with a non-empty field set
on the empty ledger yields the `None` outcome. -/
theorem C6_update_failure_modes_witness :
    update_transaction emptyDB 7 ⟨none, some 5, none, none, none⟩ = .ok (none, emptyDB) :=
  C6_update_failure_modes emptyDB 7 ⟨none, some 5, none, none, none⟩
    (Or.inl rfl) (Or.inr (by simp [emptyDB]))

/-- Claim C3: `list()` returns all stored transactions (a permutation of
the table) ordered with primary key `occurredOn` descending and
secondary key `recordedAt` descending; in particular, after inserting
transactions with `occurredOn` 2024-01-01, 2024-01-03, 2024-01-02 in
that order, `list()` returns them as 2024-01-03, 2024-01-02,
2024-01-01. -/
theorem C3_list_ordering :
    (∀ st : DBState,
      (get_all_transactions st none).Perm st.rows ∧
      List.Sorted txLe (get_all_transactions st none)) ∧
    (get_all_transactions c3State none).map Transaction.date
      = ["2024-01-03", "2024-01-02", "2024-01-01"] := by
  refine ⟨fun st => ⟨?_, ?_⟩, by decide⟩
  · exact List.perm_insertionSort txLe st.rows
  · exact List.sorted_insertionSort txLe st.rows

/-- Claim C5: a valid `create` followed by `get` of the returned id
yields exactly the created record: the caller-supplied kind, amount,
category, description and occurredOn are stored verbatim, and the record
now carries a populated id (the fresh rowid) and recordedAt. -/
theorem C5_create_get_roundtrip (st : DBState) (ty : String) (q : ℚ)
    (category description : String) (date : Option String) (today now : String)
    (hty : ty = "income" ∨ ty = "expense") (hfresh : IdsFresh st) :
    ∃ r st', create st ty (some q) category description date today now = .ok (r, st') ∧
      r.id = some st.nextId ∧
      r.type = ty ∧ r.amount = q ∧ r.category = category ∧
      r.description = description ∧ r.date = date.getD today ∧ r.created_at = now ∧
      get_transaction_by_id st' st.nextId = some r := by
  have hc : create st ty (some q) category description date today now
      = .ok (⟨some st.nextId, ty, q, category, description, date.getD today, now⟩,
             ⟨st.rows ++ [⟨some st.nextId, ty, q, category, description, date.getD today, now⟩],
              st.nextId + 1⟩) := by
    simp [create, Transaction.init, add_transaction, if_pos hty]
  refine ⟨_, _, hc, rfl, rfl, rfl, rfl, rfl, rfl, rfl, ?_⟩
  have h1 : st.rows.find? (fun t => decide (t.id = some st.nextId)) = none := by
    rw [List.find?_eq_none]
    intro t ht hdec
    have hid : t.id = some st.nextId := by simpa using hdec
    exact absurd (hfresh t ht st.nextId hid) (lt_irrefl _)
  rw [get_transaction_by_id, List.find?_append, h1]
  simp

/-- Claim C5 witness: create an income of 3 on the empty ledger and read
it back. -/
theorem C5_create_get_roundtrip_witness :
    ∃ r st', create emptyDB "income" (some 3) "Salary" "" (some "2024-01-01") "d" "t"
        = .ok (r, st') ∧
      r.id = some emptyDB.nextId ∧
      r.type = "income" ∧ r.amount = 3 ∧ r.category = "Salary" ∧
      r.description = "" ∧ r.date = (some "2024-01-01").getD "d" ∧ r.created_at = "t" ∧
      get_transaction_by_id st' emptyDB.nextId = some r :=
  C5_create_get_roundtrip emptyDB "income" 3 "Salary" "" (some "2024-01-01") "d" "t"
    (Or.inl rfl) (by simp [IdsFresh, emptyDB])

/-- Claim C4: an update with a sparse field set replaces exactly the
supplied fields of the addressed record, leaves the absent fields (and
every other record) unchanged, and never changes `id` or `recordedAt`. -/
theorem C4_update_sparse_fields (st : DBState) (i : Nat) (p : Patch) (t : Transaction)
    (hnd : (st.rows.map Transaction.id).Nodup)
    (ht : t ∈ st.rows) (hid : t.id = some i)
    (hty : p.type = none ∨ p.type = some "income" ∨ p.type = some "expense")
    (hne : p.isEmpty = false) :
    ∃ r st', update_transaction st i p = .ok (some r, st') ∧
      r.id = t.id ∧ r.created_at = t.created_at ∧
      r.type = p.type.getD t.type ∧ r.amount = p.amount.getD t.amount ∧
      r.category = p.category.getD t.category ∧
      r.description = p.description.getD t.description ∧
      r.date = p.date.getD t.date ∧
      r ∈ st'.rows ∧ st'.rows.length = st.rows.length ∧
      (∀ u ∈ st.rows, u.id ≠ some i → u ∈ st'.rows) := by
  have he : ¬ p.isEmpty = true := by rw [hne]; exact Bool.false_ne_true
  have hcheck : (match p.type with
      | some ty => decide (ty = "income" ∨ ty = "expense")
      | none => true) = true := by
    rcases hty with h' | h' | h' <;> simp [h']
  have hany : st.rows.any (fun u => decide (u.id = some i)) = true :=
    List.any_eq_true.mpr ⟨t, ht, by simp [hid]⟩
  have hpres : ∀ u : Transaction,
      (if u.id = some i then applyPatch p u else u).id = u.id := by
    intro u
    by_cases h : u.id = some i <;> simp [applyPatch, h]
  have hfind : st.rows.find? (fun u => decide (u.id = some i)) = some t := by
    have hsome : (st.rows.find? (fun u => decide (u.id = some i))).isSome :=
      List.find?_isSome.mpr ⟨t, ht, by simp [hid]⟩
    obtain ⟨u, hu⟩ := Option.isSome_iff_exists.mp hsome
    have humem : u ∈ st.rows := List.mem_of_find?_eq_some hu
    have huid : u.id = some i := by simpa using List.find?_some hu
    have : u = t := List.inj_on_of_nodup_map hnd humem ht (by rw [huid, hid])
    rw [hu, this]
  have hmapfind :
      (st.rows.map (fun u => if u.id = some i then applyPatch p u else u)).find?
          (fun u => decide (u.id = some i))
        = some (applyPatch p t) := by
    rw [List.find?_map]
    have hcomp : ((fun u : Transaction => decide (u.id = some i)) ∘
          (fun u => if u.id = some i then applyPatch p u else u))
        = (fun u : Transaction => decide (u.id = some i)) := by
      funext u
      simp [Function.comp, hpres u]
    rw [hcomp, hfind]
    simp [hid]
  have hupd : update_transaction st i p
      = .ok (some (applyPatch p t),
             ⟨st.rows.map (fun u => if u.id = some i then applyPatch p u else u), st.nextId⟩) := by
    unfold update_transaction
    rw [if_neg he, if_pos hcheck, if_pos hany]
    simp only [get_transaction_by_id]
    rw [hmapfind]
  refine ⟨applyPatch p t, _, hupd, ?_, rfl, rfl, rfl, rfl, rfl, rfl, ?_, ?_, ?_⟩
  · simp [applyPatch]
  · have : applyPatch p t = (if t.id = some i then applyPatch p t else t) := by
      rw [if_pos hid]
    rw [this]
    exact List.mem_map_of_mem _ ht
  · exact List.length_map _ _
  · intro u hu hune
    have : (if u.id = some i then applyPatch p u else u) = u := if_neg hune
    rw [← this]
    exact List.mem_map_of_mem _ hu

/-- Claim C4 witness: patching only the category of the sample expense
row changes that field alone. -/
theorem C4_update_sparse_fields_witness :
    ∃ r st', update_transaction sampleDB 1 ⟨none, none, some "X", none, none⟩
        = .ok (some r, st') ∧
      r.id = sampleTx.id ∧ r.created_at = sampleTx.created_at ∧
      r.type = (none : Option String).getD sampleTx.type ∧
      r.amount = (none : Option ℚ).getD sampleTx.amount ∧
      r.category = (some "X").getD sampleTx.category ∧
      r.description = (none : Option String).getD sampleTx.description ∧
      r.date = (none : Option String).getD sampleTx.date ∧
      r ∈ st'.rows ∧ st'.rows.length = sampleDB.rows.length ∧
      (∀ u ∈ sampleDB.rows, u.id ≠ some 1 → u ∈ st'.rows) :=
  C4_update_sparse_fields sampleDB 1 ⟨none, none, some "X", none, none⟩ sampleTx
    (by decide) (by decide) (by decide) (Or.inl rfl) rfl

/-- Each `(kind, category)` pair owns at most one group row of the
ordered `GROUP BY type, category` result: the number of group rows for
kind `k` and category `cat` is 1 when some row has that key, else 0. -/
theorem category_filter_countP (rows : List Transaction) (k cat : String) :
    ((List.insertionSort catLe (categoryGroups rows)).filter
        (fun g => decide (g.1 = k))).countP (fun g => decide (g.2.1 = cat))
      = if (k, cat) ∈ rows.map keyTC then 1 else 0 := by
  rw [List.countP_filter]
  rw [(List.perm_insertionSort catLe (categoryGroups rows)).countP_eq]
  rw [categoryGroups, List.countP_map]
  have hcomp : ((fun g : String × String × ℚ × Nat =>
        decide (g.2.1 = cat) && decide (g.1 = k)) ∘ categoryGroup rows)
      = fun key : String × String => decide (key.2 = cat) && decide (key.1 = k) := by
    funext key
    rfl
  rw [hcomp]
  have hpred : ∀ key ∈ (rows.map keyTC).dedup,
      (decide (key.2 = cat) && decide (key.1 = k)) = decide (key = (k, cat)) := by
    intro key _
    rcases key with ⟨a, b⟩
    by_cases h1 : a = k <;> by_cases h2 : b = cat <;> simp [h1, h2, Prod.ext_iff]
  rw [List.countP_congr (fun x hx => by rw [hpred x hx])]
  rw [countP_eq_ite_of_nodup _ (List.nodup_dedup _) (k, cat)]
  by_cases h : (k, cat) ∈ rows.map keyTC
  · rw [if_pos (List.mem_dedup.mpr h), if_pos h]
  · rw [if_neg (fun hx => h (List.mem_dedup.mp hx)), if_neg h]

/-- Adding up the `COUNT(*)` column of the kind-`k` group rows counts
exactly the rows of kind `k`. -/
theorem category_filter_sum (rows : List Transaction) (k : String) :
    (((List.insertionSort catLe (categoryGroups rows)).filter
        (fun g => decide (g.1 = k))).map (fun g => g.2.2.2)).sum
      = rows.countP (fun t => decide (t.type = k)) := by
  have hperm := ((List.perm_insertionSort catLe (categoryGroups rows)).filter
    (fun g => decide (g.1 = k))).map (fun g => g.2.2.2)
  rw [hperm.sum_eq]
  rw [categoryGroups, List.filter_map, List.map_map]
  have hcomp : ((fun g : String × String × ℚ × Nat => decide (g.1 = k)) ∘ categoryGroup rows)
      = fun key : String × String => decide (key.1 = k) := by
    funext key
    rfl
  rw [hcomp]
  have hcongr : ∀ key ∈ ((rows.map keyTC).dedup).filter
      (fun key : String × String => decide (key.1 = k)),
      ((fun g : String × String × ℚ × Nat => g.2.2.2) ∘ categoryGroup rows) key
        = (rows.map keyTC).countP (fun y => decide (y = key)) := by
    intro key _
    exact length_filter_eq_countP_map keyTC key rows
  rw [List.map_congr_left hcongr, sum_map_countP_dedup_filter]
  rw [List.countP_map]
  rfl

/-- Claim C7: every stored record belongs to exactly one `(kind,
category)` group of `summarizeByCategory()` (one group of the list for
the kind of the record carries its category), and per kind the group
counts add up to the count that `summarize()` reports for that kind. -/
theorem C7_category_partition (st : DBState) (hv : KindsValid st) :
    (∀ t ∈ st.rows,
      (t.type = "income" →
        (get_category_summary st).1.countP (fun g => decide (g.1 = t.category)) = 1) ∧
      (t.type = "expense" →
        (get_category_summary st).2.countP (fun g => decide (g.1 = t.category)) = 1)) ∧
    ((get_category_summary st).1.map (fun g => g.2.2)).sum = (get_summary st).income_count ∧
    ((get_category_summary st).2.map (fun g => g.2.2)).sum = (get_summary st).expense_count := by
  have hcount : ∀ (k cat : String), (k, cat) ∈ st.rows.map keyTC →
      (((List.insertionSort catLe (categoryGroups st.rows)).filter
          (fun g => decide (g.1 = k))).map (fun g => g.2)).countP
        (fun g => decide (g.1 = cat)) = 1 := by
    intro k cat hmem
    rw [List.countP_map]
    have hcomp : ((fun g : String × ℚ × Nat => decide (g.1 = cat)) ∘
          (fun g : String × String × ℚ × Nat => g.2))
        = fun g : String × String × ℚ × Nat => decide (g.2.1 = cat) := by
      funext g
      rfl
    rw [hcomp, category_filter_countP, if_pos hmem]
  have hsum : ∀ k : String,
      ((((List.insertionSort catLe (categoryGroups st.rows)).filter
          (fun g => decide (g.1 = k))).map (fun g => g.2)).map
            (fun g : String × ℚ × Nat => g.2.2)).sum
        = st.rows.countP (fun t => decide (t.type = k)) := by
    intro k
    rw [List.map_map]
    have hcomp : ((fun g : String × ℚ × Nat => g.2.2) ∘
          (fun g : String × String × ℚ × Nat => g.2))
        = fun g : String × String × ℚ × Nat => g.2.2.2 := by
      funext g
      rfl
    rw [hcomp, category_filter_sum]
  refine ⟨?_, ?_, ?_⟩
  · intro t ht
    constructor
    · intro hty
      have hmem : ("income", t.category) ∈ st.rows.map keyTC := by
        have := List.mem_map_of_mem keyTC ht
        rwa [keyTC, hty] at this
      exact hcount "income" t.category hmem
    · intro hty
      have hmem : ("expense", t.category) ∈ st.rows.map keyTC := by
        have := List.mem_map_of_mem keyTC ht
        rwa [keyTC, hty] at this
      exact hcount "expense" t.category hmem
  · rw [get_summary_spec]
    have := hsum "income"
    simp only [get_category_summary]
    rw [this, List.countP_eq_length_filter]
  · rw [get_summary_spec]
    have := hsum "expense"
    simp only [get_category_summary]
    rw [this, List.countP_eq_length_filter]

/-- Claim C7 witness: instantiated on the two-row sample ledger. -/
theorem C7_category_partition_witness :
    (∀ t ∈ sampleDB.rows,
      (t.type = "income" →
        (get_category_summary sampleDB).1.countP (fun g => decide (g.1 = t.category)) = 1) ∧
      (t.type = "expense" →
        (get_category_summary sampleDB).2.countP (fun g => decide (g.1 = t.category)) = 1)) ∧
    ((get_category_summary sampleDB).1.map (fun g => g.2.2)).sum
        = (get_summary sampleDB).income_count ∧
    ((get_category_summary sampleDB).2.map (fun g => g.2.2)).sum
        = (get_summary sampleDB).expense_count :=
  C7_category_partition sampleDB (by unfold KindsValid; decide)

/-- Claim C8: both sequences returned by `summarizeByCategory()` are
sorted by the group total, descending. -/
theorem C8_category_sorted (st : DBState) (hv : KindsValid st) :
    List.Pairwise (fun a b : String × ℚ × Nat => b.2.1 ≤ a.2.1) (get_category_summary st).1 ∧
    List.Pairwise (fun a b : String × ℚ × Nat => b.2.1 ≤ a.2.1) (get_category_summary st).2 := by
  have hs : List.Pairwise catLe (List.insertionSort catLe (categoryGroups st.rows)) :=
    List.sorted_insertionSort catLe (categoryGroups st.rows)
  constructor <;>
  · simp only [get_category_summary]
    refine List.pairwise_map.mpr ?_
    exact hs.sublist (List.filter_sublist _)

/-- Claim C8 witness: instantiated on the two-row sample ledger. -/
theorem C8_category_sorted_witness :
    List.Pairwise (fun a b : String × ℚ × Nat => b.2.1 ≤ a.2.1)
        (get_category_summary sampleDB).1 ∧
    List.Pairwise (fun a b : String × ℚ × Nat => b.2.1 ≤ a.2.1)
        (get_category_summary sampleDB).2 :=
  C8_category_sorted sampleDB (by unfold KindsValid; decide)

end ExpenseTracker
